import Mathlib

/-!
# Verification of the dns-lookup-go record decoder and client logic

A shallow embedding of the `dnslookupapi` Go package. JSON wire values are
modelled as an inductive `Json` type; Go's `encoding/json` field-matching
rules (missing key → zero value, `null` → zero value, unknown keys ignored,
case-insensitive tag matching, last duplicate key wins) are modelled
explicitly, and each Go function of the repository is translated to a Lean
definition carrying the same name wherever Lean allows it.

Inputs are modelled at the level of parsed JSON documents: a `Json` value
stands for the byte slice that serializes it, so the embedding covers every
well-formed JSON input.  (Byte sequences that are not valid JSON make every
`encoding/json` entry point fail up front and are outside the model.)
-/

/- ### The JSON document model -/

mutual
/-- A JSON document.  Numbers are modelled as integers: no field of this API
carries a fractional value that a verified property depends on (the `float64`
fields of `LOCRecord` are carried abstractly as the integer value of the wire
number; decoding into a Go `float64` and into a Go `int` both succeed exactly
on a JSON number in this model).  Arrays and objects use the mutually
inductive list types below so that equality of documents stays decidable by
kernel reduction. -/
inductive Json where
  | null
  | bool (b : Bool)
  | num (n : Int)
  | str (s : String)
  | arr (elems : JsonList)
  | obj (fields : JsonFields)
deriving DecidableEq, Repr

/-- A list of JSON values (the payload of `Json.arr`). -/
inductive JsonList where
  | nil
  | cons (hd : Json) (tl : JsonList)
deriving DecidableEq, Repr

/-- An ordered list of key/value members (the payload of `Json.obj`). -/
inductive JsonFields where
  | nil
  | cons (key : String) (val : Json) (tl : JsonFields)
deriving DecidableEq, Repr
end

def JsonList.ofList : List Json → JsonList
  | [] => .nil
  | x :: xs => .cons x (JsonList.ofList xs)

def JsonList.toList : JsonList → List Json
  | .nil => []
  | .cons x xs => x :: xs.toList

def JsonFields.ofList : List (String × Json) → JsonFields
  | [] => .nil
  | (k, v) :: xs => .cons k v (JsonFields.ofList xs)

def JsonFields.toList : JsonFields → List (String × Json)
  | .nil => []
  | .cons k v xs => (k, v) :: xs.toList

/-- Builds a JSON array from an ordinary Lean list. -/
def jarr (l : List Json) : Json := .arr (JsonList.ofList l)

/-- Builds a JSON object from an ordinary Lean list of members. -/
def jobj (l : List (String × Json)) : Json := .obj (JsonFields.ofList l)

theorem JsonList.toList_ofList (l : List Json) : (JsonList.ofList l).toList = l := by
  induction l with
  | nil => rfl
  | cons x xs ih => simp [JsonList.ofList, JsonList.toList, ih]

theorem JsonFields.toFields_ofList (l : List (String × Json)) :
    (JsonFields.ofList l).toList = l := by
  induction l with
  | nil => rfl
  | cons x xs ih => cases x; simp [JsonFields.ofList, JsonFields.toList, ih]

/- ### Go `encoding/json` decoding primitives

Go decodes a JSON value into a struct field by field.  The rules the source
relies on: a missing key leaves the field at its zero value; a JSON `null`
leaves the field at its zero value; an unknown key is ignored; a key is
matched against the struct tags exactly, falling back to a case-insensitive
match; when an object repeats (a case variant of) a key, each occurrence is
assigned in order, so the last one wins; a type mismatch on any field makes
`json.Unmarshal` return a non-nil error. -/

/-- The ASCII-lowercased code point of a character, for case-insensitive tag
matching (Go's `foldName`). -/
def lowerCode (c : Char) : Nat :=
  if 65 ≤ c.toNat && c.toNat ≤ 90 then c.toNat + 32 else c.toNat

/-- ASCII case-insensitive string equality. -/
def strCaseEq (a b : String) : Bool :=
  a.toList.map lowerCode == b.toList.map lowerCode

/-- Go `encoding/json` key lookup for the struct field with JSON tag `tag`.
Keys are processed in object order and every matching key overwrites the
field, so the last match wins; since every tag set in this package is pairwise
distinct case-insensitively, Go's exact-preferred-then-case-insensitive match
is equivalent to taking the last case-insensitive match. -/
def getField (fields : List (String × Json)) (tag : String) : Option Json :=
  ((fields.filter (fun p => strCaseEq p.1 tag)).getLast?).map (fun p => p.2)

/-- Go unmarshalling of a JSON value into a struct: the value must be an
object (or `null`, which leaves the whole struct at its zero value and is
modelled as an object with no members); anything else is a type error. -/
def objFields : Json → Except String (List (String × Json))
  | .obj fields => .ok fields.toList
  | .null => .ok []
  | _ => .error "json: cannot unmarshal value into Go struct"

/-- Go decoding of a `string` struct field: missing or `null` leaves `""`,
a JSON string is taken verbatim, anything else is a type error. -/
def decodeStringField (fields : List (String × Json)) (tag : String) : Except String String :=
  match getField fields tag with
  | none => .ok ""
  | some .null => .ok ""
  | some (.str s) => .ok s
  | some _ => .error ("json: cannot unmarshal value into Go field " ++ tag ++ " of type string")

/-- Go decoding of an `int` struct field. -/
def decodeIntField (fields : List (String × Json)) (tag : String) : Except String Int :=
  match getField fields tag with
  | none => .ok 0
  | some .null => .ok 0
  | some (.num n) => .ok n
  | some _ => .error ("json: cannot unmarshal value into Go field " ++ tag ++ " of type int")

/-- Go decoding of a `float64` struct field.  In this model a wire number is
an integer, so the decode succeeds on exactly the same documents as an `int`
field; the carried value is the wire number. -/
def decodeFloatField (fields : List (String × Json)) (tag : String) : Except String Int :=
  match getField fields tag with
  | none => .ok 0
  | some .null => .ok 0
  | some (.num n) => .ok n
  | some _ => .error ("json: cannot unmarshal value into Go field " ++ tag ++ " of type float64")

/-- Go decoding of one element of a `[]string`. -/
def decodeStringElem : Json → Except String String
  | .null => .ok ""
  | .str s => .ok s
  | _ => .error "json: cannot unmarshal value into Go value of type string"

/-- Go decoding of one element of a `[]int`. -/
def decodeIntElem : Json → Except String Int
  | .null => .ok 0
  | .num n => .ok n
  | _ => .error "json: cannot unmarshal value into Go value of type int"

/-- Go decoding of a `[]string` struct field: missing or `null` leaves the
slice nil, a JSON array decodes element-wise, anything else is a type error. -/
def decodeStringListField (fields : List (String × Json)) (tag : String) :
    Except String (List String) :=
  match getField fields tag with
  | none => .ok []
  | some .null => .ok []
  | some (.arr elems) => elems.toList.mapM decodeStringElem
  | some _ => .error ("json: cannot unmarshal value into Go field " ++ tag ++ " of type []string")

/-- Go decoding of a `[]int` struct field. -/
def decodeIntListField (fields : List (String × Json)) (tag : String) :
    Except String (List Int) :=
  match getField fields tag with
  | none => .ok []
  | some .null => .ok []
  | some (.arr elems) => elems.toList.mapM decodeIntElem
  | some _ => .error ("json: cannot unmarshal value into Go field " ++ tag ++ " of type []int")

/-- Model of `unmarshalString` (models.go): `json.Unmarshal` of a raw value
into a `string` variable.  `null` leaves the zero value `""` with no error. -/
def unmarshalString : Json → Except String String
  | .str s => .ok s
  | .null => .ok ""
  | _ => .error "json: cannot unmarshal value into Go value of type string"

/-- Boolean success test for an `Except` result. -/
def exceptOk {α : Type} : Except String α → Bool
  | .ok _ => true
  | .error _ => false

instance {α β : Type} [DecidableEq α] [DecidableEq β] : DecidableEq (Except α β) := fun a b =>
  match a, b with
  | .ok x, .ok y =>
    if h : x = y then isTrue (by rw [h]) else isFalse (by intro he; cases he; exact h rfl)
  | .error x, .error y =>
    if h : x = y then isTrue (by rw [h]) else isFalse (by intro he; cases he; exact h rfl)
  | .ok _, .error _ => isFalse (by intro he; cases he)
  | .error _, .ok _ => isFalse (by intro he; cases he)

/- ### The `Time` wrapper and its wire codec (models.go 22-51) -/

/-- Model of the Go `Time` wrapper on `time.Time`, reduced to the observable
content of a wall-clock value parsed with layout `"2006-01-02 15:04:05 MST"`:
the six calendar fields and the location.  `loc = none` models the nil
location of the zero `time.Time` (which prints as `UTC`); a parsed value
carries `some zone`, which is never the same `time.Time` as the zero value
because its location pointer is non-nil. -/
structure Time where
  year : Nat
  month : Nat
  day : Nat
  hour : Nat
  minute : Nat
  second : Nat
  loc : Option String
deriving DecidableEq, Repr

/-- Model of the `emptyTime` package variable: the zero `time.Time`,
0001-01-01 00:00:00 with a nil location. -/
def emptyTime : Time := ⟨1, 1, 1, 0, 0, 0, none⟩

/-- Parses two ASCII digits. -/
def parse2 (cs : List Char) : Option (Nat × List Char) :=
  match cs with
  | a :: b :: rest =>
    if a.isDigit && b.isDigit then some ((a.toNat - 48) * 10 + (b.toNat - 48), rest) else none
  | _ => none

/-- Parses four ASCII digits. -/
def parse4 (cs : List Char) : Option (Nat × List Char) :=
  match cs with
  | a :: b :: c :: d :: rest =>
    if a.isDigit && b.isDigit && c.isDigit && d.isDigit then
      some ((a.toNat - 48) * 1000 + (b.toNat - 48) * 100 + (c.toNat - 48) * 10 + (d.toNat - 48),
            rest)
    else none
  | _ => none

/-- Consumes one expected literal character. -/
def expectChar (c : Char) (cs : List Char) : Option (List Char) :=
  match cs with
  | d :: rest => if d == c then some rest else none
  | _ => none

/-- A three-letter upper-case zone abbreviation, the `MST` element of the
layout.  (Go's `time.Parse` also accepts longer abbreviations and numeric
offset forms for this element; the API wire format and the repository's tests
only exercise three-letter abbreviations, which is what the model covers.) -/
def parseZone (cs : List Char) : Option String :=
  if cs.length == 3 && cs.all (fun c => c.isUpper) then some (String.mk cs) else none

def isLeapYear (y : Nat) : Bool :=
  (y % 4 == 0 && y % 100 != 0) || (y % 400 == 0)

def daysIn (month year : Nat) : Nat :=
  if month == 2 then (if isLeapYear year then 29 else 28)
  else if month == 4 || month == 6 || month == 9 || month == 11 then 30
  else 31

/-- The character-level parse of layout `"2006-01-02 15:04:05 MST"`, with
Go's range validation of the calendar fields. -/
def parseGoTimeFields (cs : List Char) : Option Time := do
  let (year, cs) ← parse4 cs
  let cs ← expectChar '-' cs
  let (month, cs) ← parse2 cs
  let cs ← expectChar '-' cs
  let (day, cs) ← parse2 cs
  let cs ← expectChar ' ' cs
  let (hour, cs) ← parse2 cs
  let cs ← expectChar ':' cs
  let (minute, cs) ← parse2 cs
  let cs ← expectChar ':' cs
  let (second, cs) ← parse2 cs
  let cs ← expectChar ' ' cs
  let zone ← parseZone cs
  if 1 ≤ month && month ≤ 12 && 1 ≤ day && day ≤ daysIn month year
      && hour ≤ 23 && minute ≤ 59 && second ≤ 59 then
    some ⟨year, month, day, hour, minute, second, some zone⟩
  else
    none

/-- Model of `time.Parse("2006-01-02 15:04:05 MST", str)`.  Go reports the
several mismatch cases with distinct diagnostic texts; the model collapses
them into one descriptive message, which no claim distinguishes. -/
def timeParse (s : String) : Except String Time :=
  match parseGoTimeFields s.toList with
  | some t => .ok t
  | none =>
    .error ("parsing time " ++ s ++ " as 2006-01-02 15:04:05 MST: cannot parse")

def pad2 (n : Nat) : String :=
  if n < 10 then "0" ++ toString n else toString n

def pad4 (n : Nat) : String :=
  if n < 10 then "000" ++ toString n
  else if n < 100 then "00" ++ toString n
  else if n < 1000 then "0" ++ toString n
  else toString n

/-- Model of `time.Time.Format("2006-01-02 15:04:05 MST")`; the nil location
of the zero time prints as `UTC`. -/
def timeFormat (t : Time) : String :=
  pad4 t.year ++ "-" ++ pad2 t.month ++ "-" ++ pad2 t.day ++ " "
    ++ pad2 t.hour ++ ":" ++ pad2 t.minute ++ ":" ++ pad2 t.second ++ " "
    ++ (match t.loc with | some z => z | none => "UTC")

/-- Model of `Time.UnmarshalJSON` (models.go 27-43). -/
def Time.unmarshalJSON (b : Json) : Except String Time := do
  let str ← unmarshalString b
  if str = "" then
    pure emptyTime
  else
    timeParse str

/-- Model of `Time.MarshalJSON` (models.go 45-51): the byte strings `""` and
`"` formatted `"` are the JSON string values they spell. -/
def Time.marshalJSON (t : Time) : Json :=
  if t = emptyTime then .str "" else .str (timeFormat t)

example : Time.unmarshalJSON (.str "") = .ok emptyTime := by decide
example : Time.unmarshalJSON (.str "2006-01-02 15:04:05 UTC")
    = .ok ⟨2006, 1, 2, 15, 4, 5, some "UTC"⟩ := by decide
example : (Time.unmarshalJSON (.str "2006-01-02 15:04:05 UTC")).map Time.marshalJSON
    = .ok (.str "2006-01-02 15:04:05 UTC") := by decide
example : exceptOk (Time.unmarshalJSON (.str "2006-01-02T15:04:05-07:00")) = false := by decide

/- ### The record envelope and the 28 concrete record shapes (models.go 53-421) -/

/-- Model of `commonFields`: the envelope every record carries. -/
structure commonFields where
  type : Int
  dnsType : String
  name : String
  ttl : Int
  rRsetType : Int
  rawText : String
deriving DecidableEq, Repr

/-- The zero value of `commonFields`. -/
def commonFields.zero : commonFields := ⟨0, "", "", 0, 0, ""⟩

/-- Go decode of the envelope fields out of an already-split object. -/
def decodeCommonFields (fields : List (String × Json)) : Except String commonFields := do
  let type ← decodeIntField fields "type"
  let dnsType ← decodeStringField fields "dnsType"
  let name ← decodeStringField fields "name"
  let ttl ← decodeIntField fields "ttl"
  let rRsetType ← decodeIntField fields "rRsetType"
  let rawText ← decodeStringField fields "rawText"
  pure ⟨type, dnsType, name, ttl, rRsetType, rawText⟩

/-- Model of `json.Unmarshal(record, &obj)` for `obj` a struct embedding
`commonFields` (parseRecord, models.go 539-543). -/
def decodeCommon (j : Json) : Except String commonFields := do
  decodeCommonFields (← objFields j)

structure ARecord where
  common : commonFields
  address : String
deriving DecidableEq, Repr

def decodeARecord (j : Json) : Except String ARecord := do
  let fields ← objFields j
  let common ← decodeCommonFields fields
  let address ← decodeStringField fields "address"
  pure ⟨common, address⟩

structure AAAARecord where
  common : commonFields
  address : String
deriving DecidableEq, Repr

def decodeAAAARecord (j : Json) : Except String AAAARecord := do
  let fields ← objFields j
  let common ← decodeCommonFields fields
  let address ← decodeStringField fields "address"
  pure ⟨common, address⟩

structure NSRecord where
  common : commonFields
  target : String
deriving DecidableEq, Repr

def decodeNSRecord (j : Json) : Except String NSRecord := do
  let fields ← objFields j
  let common ← decodeCommonFields fields
  let target ← decodeStringField fields "target"
  pure ⟨common, target⟩

structure MXRecord where
  common : commonFields
  target : String
  priority : Int
deriving DecidableEq, Repr

def decodeMXRecord (j : Json) : Except String MXRecord := do
  let fields ← objFields j
  let common ← decodeCommonFields fields
  let target ← decodeStringField fields "target"
  let priority ← decodeIntField fields "priority"
  pure ⟨common, target, priority⟩

structure MDRecord where
  common : commonFields
  additionalName : String
  mailAgent : String
deriving DecidableEq, Repr

def decodeMDRecord (j : Json) : Except String MDRecord := do
  let fields ← objFields j
  let common ← decodeCommonFields fields
  let additionalName ← decodeStringField fields "additionalName"
  let mailAgent ← decodeStringField fields "mailAgent"
  pure ⟨common, additionalName, mailAgent⟩

structure MFRecord where
  common : commonFields
  additionalName : String
  mailAgent : String
deriving DecidableEq, Repr

def decodeMFRecord (j : Json) : Except String MFRecord := do
  let fields ← objFields j
  let common ← decodeCommonFields fields
  let additionalName ← decodeStringField fields "additionalName"
  let mailAgent ← decodeStringField fields "mailAgent"
  pure ⟨common, additionalName, mailAgent⟩

structure MBRecord where
  common : commonFields
  additionalName : String
  mailbox : String
deriving DecidableEq, Repr

def decodeMBRecord (j : Json) : Except String MBRecord := do
  let fields ← objFields j
  let common ← decodeCommonFields fields
  let additionalName ← decodeStringField fields "additionalName"
  let mailbox ← decodeStringField fields "mailbox"
  pure ⟨common, additionalName, mailbox⟩

structure SOARecord where
  common : commonFields
  admin : String
  host : String
  expire : Int
  minimum : Int
  refresh : Int
  retry : Int
  serial : Int
deriving DecidableEq, Repr

def decodeSOARecord (j : Json) : Except String SOARecord := do
  let fields ← objFields j
  let common ← decodeCommonFields fields
  let admin ← decodeStringField fields "admin"
  let host ← decodeStringField fields "host"
  let expire ← decodeIntField fields "expire"
  let minimum ← decodeIntField fields "minimum"
  let refresh ← decodeIntField fields "refresh"
  let retry ← decodeIntField fields "retry"
  let serial ← decodeIntField fields "serial"
  pure ⟨common, admin, host, expire, minimum, refresh, retry, serial⟩

structure TXTRecord where
  common : commonFields
  strings : List String
deriving DecidableEq, Repr

def decodeTXTRecord (j : Json) : Except String TXTRecord := do
  let fields ← objFields j
  let common ← decodeCommonFields fields
  let strings ← decodeStringListField fields "strings"
  pure ⟨common, strings⟩

structure CAARecord where
  common : commonFields
  flags : Int
  tag : String
  value : String
deriving DecidableEq, Repr

def decodeCAARecord (j : Json) : Except String CAARecord := do
  let fields ← objFields j
  let common ← decodeCommonFields fields
  let flags ← decodeIntField fields "flags"
  let tag ← decodeStringField fields "tag"
  let value ← decodeStringField fields "value"
  pure ⟨common, flags, tag, value⟩

structure CNAMERecord where
  common : commonFields
  «alias» : String
  target : String
deriving DecidableEq, Repr

def decodeCNAMERecord (j : Json) : Except String CNAMERecord := do
  let fields ← objFields j
  let common ← decodeCommonFields fields
  let «alias» ← decodeStringField fields "alias"
  let target ← decodeStringField fields "target"
  pure ⟨common, «alias», target⟩

structure DNAMERecord where
  common : commonFields
  «alias» : String
  target : String
deriving DecidableEq, Repr

def decodeDNAMERecord (j : Json) : Except String DNAMERecord := do
  let fields ← objFields j
  let common ← decodeCommonFields fields
  let «alias» ← decodeStringField fields "alias"
  let target ← decodeStringField fields "target"
  pure ⟨common, «alias», target⟩

structure DNSKEYRecord where
  common : commonFields
  algorithm : Int
  flags : Int
  footprint : Int
  key : List String
  protocol : Int
  publicKey : String
deriving DecidableEq, Repr

def decodeDNSKEYRecord (j : Json) : Except String DNSKEYRecord := do
  let fields ← objFields j
  let common ← decodeCommonFields fields
  let algorithm ← decodeIntField fields "algorithm"
  let flags ← decodeIntField fields "flags"
  let footprint ← decodeIntField fields "footprint"
  let key ← decodeStringListField fields "key"
  let protocol ← decodeIntField fields "protocol"
  let publicKey ← decodeStringField fields "publicKey"
  pure ⟨common, algorithm, flags, footprint, key, protocol, publicKey⟩

structure NSEC3PARAMRecord where
  common : commonFields
  flags : Int
  hashAlgorithm : Int
  iterations : Int
  salt : List String
deriving DecidableEq, Repr

def decodeNSEC3PARAMRecord (j : Json) : Except String NSEC3PARAMRecord := do
  let fields ← objFields j
  let common ← decodeCommonFields fields
  let flags ← decodeIntField fields "flags"
  let hashAlgorithm ← decodeIntField fields "hashAlgorithm"
  let iterations ← decodeIntField fields "iterations"
  let salt ← decodeStringListField fields "salt"
  pure ⟨common, flags, hashAlgorithm, iterations, salt⟩

structure DSRecord where
  common : commonFields
  algorithm : Int
  digest : List String
  digestID : Int
  footprint : Int
deriving DecidableEq, Repr

def decodeDSRecord (j : Json) : Except String DSRecord := do
  let fields ← objFields j
  let common ← decodeCommonFields fields
  let algorithm ← decodeIntField fields "algorithm"
  let digest ← decodeStringListField fields "digest"
  let digestID ← decodeIntField fields "digestID"
  let footprint ← decodeIntField fields "footprint"
  pure ⟨common, algorithm, digest, digestID, footprint⟩

structure NSECRecord where
  common : commonFields
  next : String
  types : List Int
deriving DecidableEq, Repr

def decodeNSECRecord (j : Json) : Except String NSECRecord := do
  let fields ← objFields j
  let common ← decodeCommonFields fields
  let next ← decodeStringField fields "next"
  let types ← decodeIntListField fields "types"
  pure ⟨common, next, types⟩

structure PTRRecord where
  common : commonFields
  target : String
deriving DecidableEq, Repr

def decodePTRRecord (j : Json) : Except String PTRRecord := do
  let fields ← objFields j
  let common ← decodeCommonFields fields
  let target ← decodeStringField fields "target"
  pure ⟨common, target⟩

structure SRVRecord where
  common : commonFields
  port : Int
  priority : Int
  target : String
  weight : Int
deriving DecidableEq, Repr

def decodeSRVRecord (j : Json) : Except String SRVRecord := do
  let fields ← objFields j
  let common ← decodeCommonFields fields
  let port ← decodeIntField fields "port"
  let priority ← decodeIntField fields "priority"
  let target ← decodeStringField fields "target"
  let weight ← decodeIntField fields "weight"
  pure ⟨common, port, priority, target, weight⟩

structure LOCRecord where
  common : commonFields
  altitude : Int
  hPrecision : Int
  latitude : Int
  longitude : Int
  size : Int
  vPrecision : Int
deriving DecidableEq, Repr

def decodeLOCRecord (j : Json) : Except String LOCRecord := do
  let fields ← objFields j
  let common ← decodeCommonFields fields
  let altitude ← decodeFloatField fields "altitude"
  let hPrecision ← decodeFloatField fields "hPrecision"
  let latitude ← decodeFloatField fields "latitude"
  let longitude ← decodeFloatField fields "longitude"
  let size ← decodeFloatField fields "size"
  let vPrecision ← decodeFloatField fields "vPrecision"
  pure ⟨common, altitude, hPrecision, latitude, longitude, size, vPrecision⟩

structure NAPTRRecord where
  common : commonFields
  flags : String
  order : Int
  preference : Int
  regexp : String
  replacement : String
  service : String
deriving DecidableEq, Repr

def decodeNAPTRRecord (j : Json) : Except String NAPTRRecord := do
  let fields ← objFields j
  let common ← decodeCommonFields fields
  let flags ← decodeStringField fields "flags"
  let order ← decodeIntField fields "order"
  let preference ← decodeIntField fields "preference"
  let regexp ← decodeStringField fields "regexp"
  let replacement ← decodeStringField fields "replacement"
  let service ← decodeStringField fields "service"
  pure ⟨common, flags, order, preference, regexp, replacement, service⟩

structure HINFORecord where
  common : commonFields
  cpu : String
  os : String
deriving DecidableEq, Repr

def decodeHINFORecord (j : Json) : Except String HINFORecord := do
  let fields ← objFields j
  let common ← decodeCommonFields fields
  let cpu ← decodeStringField fields "cpu"
  let os ← decodeStringField fields "os"
  pure ⟨common, cpu, os⟩

structure RPRecord where
  common : commonFields
  mailbox : String
  textDomain : String
deriving DecidableEq, Repr

def decodeRPRecord (j : Json) : Except String RPRecord := do
  let fields ← objFields j
  let common ← decodeCommonFields fields
  let mailbox ← decodeStringField fields "mailbox"
  let textDomain ← decodeStringField fields "textDomain"
  pure ⟨common, mailbox, textDomain⟩

structure DLVRecord where
  common : commonFields
  algorithm : Int
  digest : List String
  digestID : Int
  footprint : Int
deriving DecidableEq, Repr

def decodeDLVRecord (j : Json) : Except String DLVRecord := do
  let fields ← objFields j
  let common ← decodeCommonFields fields
  let algorithm ← decodeIntField fields "algorithm"
  let digest ← decodeStringListField fields "digest"
  let digestID ← decodeIntField fields "digestID"
  let footprint ← decodeIntField fields "footprint"
  pure ⟨common, algorithm, digest, digestID, footprint⟩

structure SSHFPRecord where
  common : commonFields
  algorithm : Int
  digestType : Int
  fingerPrint : List String
deriving DecidableEq, Repr

def decodeSSHFPRecord (j : Json) : Except String SSHFPRecord := do
  let fields ← objFields j
  let common ← decodeCommonFields fields
  let algorithm ← decodeIntField fields "algorithm"
  let digestType ← decodeIntField fields "digestType"
  let fingerPrint ← decodeStringListField fields "fingerPrint"
  pure ⟨common, algorithm, digestType, fingerPrint⟩

structure DHCIDRecord where
  common : commonFields
  data : List String
deriving DecidableEq, Repr

def decodeDHCIDRecord (j : Json) : Except String DHCIDRecord := do
  let fields ← objFields j
  let common ← decodeCommonFields fields
  let data ← decodeStringListField fields "data"
  pure ⟨common, data⟩

structure TLSARecord where
  common : commonFields
  certificateAssociationData : List String
  certificateUsage : Int
  matchingType : Int
  selector : Int
deriving DecidableEq, Repr

def decodeTLSARecord (j : Json) : Except String TLSARecord := do
  let fields ← objFields j
  let common ← decodeCommonFields fields
  let certificateAssociationData ← decodeStringListField fields "certificateAssociationData"
  let certificateUsage ← decodeIntField fields "certificateUsage"
  let matchingType ← decodeIntField fields "matchingType"
  let selector ← decodeIntField fields "selector"
  pure ⟨common, certificateAssociationData, certificateUsage, matchingType, selector⟩

structure NSAPRecord where
  common : commonFields
  address : String
deriving DecidableEq, Repr

def decodeNSAPRecord (j : Json) : Except String NSAPRecord := do
  let fields ← objFields j
  let common ← decodeCommonFields fields
  let address ← decodeStringField fields "address"
  pure ⟨common, address⟩

structure NULLRecord where
  common : commonFields
  data : List String
deriving DecidableEq, Repr

def decodeNULLRecord (j : Json) : Except String NULLRecord := do
  let fields ← objFields j
  let common ← decodeCommonFields fields
  let data ← decodeStringListField fields "data"
  pure ⟨common, data⟩

/- ### The tag → shape table (models.go 644-704) -/

/-- The 28 concrete record shapes; `actualDNSType` in the source returns a
pointer to the zero value of one of these Go struct types (or `nil`). -/
inductive RecordShape where
  | A | AAAA | NS | MX | MD | MF | MB | SOA | TXT | CAA | CNAME | DNAME | DNSKEY
  | NSEC3PARAM | NSEC | DS | PTR | SRV | LOC | NAPTR | HINFO | RP | DLV | SSHFP
  | DHCID | TLSA | NSAP | NULL
deriving DecidableEq, Repr

/-- Model of `actualDNSType` (models.go 644-704): the fixed table from the
`dnsType` string tag to the concrete shape, `none` for an unknown tag (Go
returns `nil`). -/
def actualDNSType (dnsType : String) : Option RecordShape :=
  match dnsType with
  | "A" => some .A
  | "AAAA" => some .AAAA
  | "NS" => some .NS
  | "MX" => some .MX
  | "MD" => some .MD
  | "MF" => some .MF
  | "MB" => some .MB
  | "SOA" => some .SOA
  | "TXT" => some .TXT
  | "CAA" => some .CAA
  | "CNAME" => some .CNAME
  | "DNAME" => some .DNAME
  | "DNSKEY" => some .DNSKEY
  | "NSEC3PARAM" => some .NSEC3PARAM
  | "NSEC" => some .NSEC
  | "DS" => some .DS
  | "PTR" => some .PTR
  | "SRV" => some .SRV
  | "LOC" => some .LOC
  | "NAPTR" => some .NAPTR
  | "HINFO" => some .HINFO
  | "RP" => some .RP
  | "DLV" => some .DLV
  | "SSHFP" => some .SSHFP
  | "DHCID" => some .DHCID
  | "TLSA" => some .TLSA
  | "NSAP" => some .NSAP
  | "NULL" => some .NULL
  | _ => none

/-- A successfully decoded concrete record: the value Go holds behind the
`interface{}` returned by `actualDNSType` after the second unmarshal. -/
inductive TypedRecord where
  | a (r : ARecord)
  | aaaa (r : AAAARecord)
  | ns (r : NSRecord)
  | mx (r : MXRecord)
  | md (r : MDRecord)
  | mf (r : MFRecord)
  | mb (r : MBRecord)
  | soa (r : SOARecord)
  | txt (r : TXTRecord)
  | caa (r : CAARecord)
  | cname (r : CNAMERecord)
  | dname (r : DNAMERecord)
  | dnskey (r : DNSKEYRecord)
  | nsec3param (r : NSEC3PARAMRecord)
  | nsec (r : NSECRecord)
  | ds (r : DSRecord)
  | ptr (r : PTRRecord)
  | srv (r : SRVRecord)
  | loc (r : LOCRecord)
  | naptr (r : NAPTRRecord)
  | hinfo (r : HINFORecord)
  | rp (r : RPRecord)
  | dlv (r : DLVRecord)
  | sshfp (r : SSHFPRecord)
  | dhcid (r : DHCIDRecord)
  | tlsa (r : TLSARecord)
  | nsap (r : NSAPRecord)
  | nullRec (r : NULLRecord)
deriving DecidableEq, Repr

/-- Model of `json.Unmarshal(record, actual)` (parseRecord, models.go 564):
the second, full unmarshal of the fragment into the concrete shape chosen by
`actualDNSType`. -/
def decodeShape : RecordShape → Json → Except String TypedRecord
  | .A, j => (decodeARecord j).map .a
  | .AAAA, j => (decodeAAAARecord j).map .aaaa
  | .NS, j => (decodeNSRecord j).map .ns
  | .MX, j => (decodeMXRecord j).map .mx
  | .MD, j => (decodeMDRecord j).map .md
  | .MF, j => (decodeMFRecord j).map .mf
  | .MB, j => (decodeMBRecord j).map .mb
  | .SOA, j => (decodeSOARecord j).map .soa
  | .TXT, j => (decodeTXTRecord j).map .txt
  | .CAA, j => (decodeCAARecord j).map .caa
  | .CNAME, j => (decodeCNAMERecord j).map .cname
  | .DNAME, j => (decodeDNAMERecord j).map .dname
  | .DNSKEY, j => (decodeDNSKEYRecord j).map .dnskey
  | .NSEC3PARAM, j => (decodeNSEC3PARAMRecord j).map .nsec3param
  | .NSEC, j => (decodeNSECRecord j).map .nsec
  | .DS, j => (decodeDSRecord j).map .ds
  | .PTR, j => (decodePTRRecord j).map .ptr
  | .SRV, j => (decodeSRVRecord j).map .srv
  | .LOC, j => (decodeLOCRecord j).map .loc
  | .NAPTR, j => (decodeNAPTRRecord j).map .naptr
  | .HINFO, j => (decodeHINFORecord j).map .hinfo
  | .RP, j => (decodeRPRecord j).map .rp
  | .DLV, j => (decodeDLVRecord j).map .dlv
  | .SSHFP, j => (decodeSSHFPRecord j).map .sshfp
  | .DHCID, j => (decodeDHCIDRecord j).map .dhcid
  | .TLSA, j => (decodeTLSARecord j).map .tlsa
  | .NSAP, j => (decodeNSAPRecord j).map .nsap
  | .NULL, j => (decodeNULLRecord j).map .nullRec

/- ### Decoded records and the record collection (models.go 423-642) -/

/-- A per-record parse failure. `unsupportedDNSType` is the distinguished
sentinel `ErrUnsupportedDNSType`; `decodeErr` carries the message of an
`encoding/json` error. -/
inductive ParseErr where
  | unsupportedDNSType
  | decodeErr (msg : String)
deriving DecidableEq, Repr

/-- Model of the package-level sentinel `var ErrUnsupportedDNSType =
errors.New("unknown DNS type")` (models.go 10). -/
def ErrUnsupportedDNSType : ParseErr := .unsupportedDNSType

/-- Model of `DNSRecord`: envelope, original raw fragment, error-or-none. -/
structure DNSRecord where
  CommonFields : commonFields
  Raw : Json
  ParseError : Option ParseErr
deriving DecidableEq, Repr

/-- Model of `DNSRecords`: the flat list plus the 28 typed lists. -/
structure DNSRecords where
  All : List DNSRecord
  A : List ARecord
  AAAA : List AAAARecord
  NS : List NSRecord
  MX : List MXRecord
  MD : List MDRecord
  MF : List MFRecord
  MB : List MBRecord
  SOA : List SOARecord
  TXT : List TXTRecord
  CAA : List CAARecord
  CNAME : List CNAMERecord
  DNAME : List DNAMERecord
  DNSKEY : List DNSKEYRecord
  NSEC3PARAM : List NSEC3PARAMRecord
  NSEC : List NSECRecord
  DS : List DSRecord
  PTR : List PTRRecord
  SRV : List SRVRecord
  LOC : List LOCRecord
  NAPTR : List NAPTRRecord
  HINFO : List HINFORecord
  RP : List RPRecord
  DLV : List DLVRecord
  SSHFP : List SSHFPRecord
  TLSA : List TLSARecord
  DHCID : List DHCIDRecord
  NSAP : List NSAPRecord
  NULL : List NULLRecord

/-- The zero value of `DNSRecords`: every list nil. -/
def emptyRecords : DNSRecords :=
  ⟨[], [], [], [], [], [], [], [], [], [], [], [], [], [], [],
   [], [], [], [], [], [], [], [], [], [], [], [], [], []⟩

/-- The append the `switch obj.DNSType` statement performs (parseRecord,
models.go 569-626).  The Go switch keys on the same `dnsType` string that
`actualDNSType` mapped to the concrete shape and the two 28-entry tables list
exactly the same tags, so dispatching on the decoded variant is the same
function; each case appends the asserted value to the matching typed list. -/
def appendTyped (r : DNSRecords) : TypedRecord → DNSRecords
  | .a v => { r with A := r.A ++ [v] }
  | .aaaa v => { r with AAAA := r.AAAA ++ [v] }
  | .ns v => { r with NS := r.NS ++ [v] }
  | .mx v => { r with MX := r.MX ++ [v] }
  | .md v => { r with MD := r.MD ++ [v] }
  | .mf v => { r with MF := r.MF ++ [v] }
  | .mb v => { r with MB := r.MB ++ [v] }
  | .soa v => { r with SOA := r.SOA ++ [v] }
  | .txt v => { r with TXT := r.TXT ++ [v] }
  | .caa v => { r with CAA := r.CAA ++ [v] }
  | .cname v => { r with CNAME := r.CNAME ++ [v] }
  | .dname v => { r with DNAME := r.DNAME ++ [v] }
  | .dnskey v => { r with DNSKEY := r.DNSKEY ++ [v] }
  | .nsec3param v => { r with NSEC3PARAM := r.NSEC3PARAM ++ [v] }
  | .nsec v => { r with NSEC := r.NSEC ++ [v] }
  | .ds v => { r with DS := r.DS ++ [v] }
  | .ptr v => { r with PTR := r.PTR ++ [v] }
  | .srv v => { r with SRV := r.SRV ++ [v] }
  | .loc v => { r with LOC := r.LOC ++ [v] }
  | .naptr v => { r with NAPTR := r.NAPTR ++ [v] }
  | .hinfo v => { r with HINFO := r.HINFO ++ [v] }
  | .rp v => { r with RP := r.RP ++ [v] }
  | .dlv v => { r with DLV := r.DLV ++ [v] }
  | .sshfp v => { r with SSHFP := r.SSHFP ++ [v] }
  | .dhcid v => { r with DHCID := r.DHCID ++ [v] }
  | .tlsa v => { r with TLSA := r.TLSA ++ [v] }
  | .nsap v => { r with NSAP := r.NSAP ++ [v] }
  | .nullRec v => { r with NULL := r.NULL ++ [v] }

/-- Model of `DNSRecords.parseRecord` (models.go 538-629).  The first
component is the receiver after the typed-list append (the Go method mutates
`r`), the second the returned `DNSRecord` triple. -/
def DNSRecords.parseRecord (r : DNSRecords) (record : Json) : DNSRecords × DNSRecord :=
  match decodeCommon record with
  | .error e => (r, ⟨commonFields.zero, record, some (.decodeErr e)⟩)
  | .ok obj =>
    match actualDNSType obj.dnsType with
    | none => (r, ⟨obj, record, some ErrUnsupportedDNSType⟩)
    | some shape =>
      match decodeShape shape record with
      | .error e => (r, ⟨obj, record, some (.decodeErr e)⟩)
      | .ok actual => (appendTyped r actual, ⟨obj, record, none⟩)

/-- The `DNSRecord` triple `parseRecord` returns, which does not depend on
the receiver (the receiver is only appended to). -/
def parseRecordResult (record : Json) : DNSRecord :=
  match decodeCommon record with
  | .error e => ⟨commonFields.zero, record, some (.decodeErr e)⟩
  | .ok obj =>
    match actualDNSType obj.dnsType with
    | none => ⟨obj, record, some ErrUnsupportedDNSType⟩
    | some shape =>
      match decodeShape shape record with
      | .error e => ⟨obj, record, some (.decodeErr e)⟩
      | .ok _ => ⟨obj, record, none⟩

/-- Model of `json.Unmarshal(data, &raw)` for `raw []json.RawMessage`
(UnmarshalJSON, models.go 526-530): a JSON array splits into its element
fragments; JSON `null` leaves the slice nil with no error (the documented
`encoding/json` behaviour for slices); any other document is a type error. -/
def rawArray : Json → Except String (List Json)
  | .arr elems => .ok elems.toList
  | .null => .ok []
  | _ => .error "json: cannot unmarshal value into Go value of type []json.RawMessage"

/-- The `for _, record := range raw` loop of `UnmarshalJSON` (models.go
532-534): each fragment is parsed, the typed lists are extended by
`parseRecord` itself and the returned triple is appended to `All`. -/
def parseAll (r : DNSRecords) : List Json → DNSRecords
  | [] => r
  | record :: rest =>
    let res := r.parseRecord record
    parseAll { res.1 with All := res.1.All ++ [res.2] } rest

/-- Model of `DNSRecords.UnmarshalJSON` (models.go 523-536). -/
def DNSRecords.unmarshalJSON (r : DNSRecords) (data : Json) : Except String DNSRecords :=
  match rawArray data with
  | .error err => .error err
  | .ok raw => .ok (parseAll r raw)

/-- Go marshalling of `commonFields` (struct field order, tag names). -/
def marshalCommonFields (c : commonFields) : Json :=
  jobj [("type", .num c.type), ("dnsType", .str c.dnsType), ("name", .str c.name),
        ("ttl", .num c.ttl), ("rRsetType", .num c.rRsetType), ("rawText", .str c.rawText)]

/-- Go marshalling of the `ParseError error` field: a nil error marshals as
JSON `null`; a non-nil error marshals through reflection on the dynamic error
value.  The sentinel `ErrUnsupportedDNSType` (an `errors.errorString`, no
exported fields) marshals as the empty object; a `json.UnmarshalTypeError`
marshals as an object of its diagnostic fields (`Value`, `Type`, `Offset`,
`Struct`, `Field`) which the model collapses to the empty object — none of
those keys is a case variant of an envelope tag, which is the only property
of the non-nil encoding any theorem below depends on. -/
def marshalParseError : Option ParseErr → Json
  | none => .null
  | some _ => .obj .nil

/-- Go marshalling of one `DNSRecord`: the `CommonFields` struct field keeps
its Go field name (it has no JSON tag), `Raw` is a `json.RawMessage` emitted
verbatim under tag `raw`, `ParseError` under tag `parseError`. -/
def marshalDNSRecord (d : DNSRecord) : Json :=
  jobj [("CommonFields", marshalCommonFields d.CommonFields), ("raw", d.Raw),
        ("parseError", marshalParseError d.ParseError)]

/-- Model of `DNSRecords.MarshalJSON` (models.go 631-642): the literal `[]`
for an empty `All`, otherwise `json.Marshal(r.All)`. -/
def DNSRecords.marshalJSON (r : DNSRecords) : Json :=
  if r.All.length = 0 then jarr [] else jarr (r.All.map marshalDNSRecord)

/-- The total number of entries across the 28 typed lists. -/
def typedCount (r : DNSRecords) : Nat :=
  r.A.length + r.AAAA.length + r.NS.length + r.MX.length + r.MD.length + r.MF.length
    + r.MB.length + r.SOA.length + r.TXT.length + r.CAA.length + r.CNAME.length
    + r.DNAME.length + r.DNSKEY.length + r.NSEC3PARAM.length + r.NSEC.length
    + r.DS.length + r.PTR.length + r.SRV.length + r.LOC.length + r.NAPTR.length
    + r.HINFO.length + r.RP.length + r.DLV.length + r.SSHFP.length + r.TLSA.length
    + r.DHCID.length + r.NSAP.length + r.NULL.length

/-- A fragment decodes fully: its envelope decodes, its `dnsType` tag is in
the `actualDNSType` table, and the second unmarshal into the concrete shape
succeeds. -/
def fullDecodeOk (record : Json) : Bool :=
  match decodeCommon record with
  | .error _ => false
  | .ok obj =>
    match actualDNSType obj.dnsType with
    | none => false
    | some shape => exceptOk (decodeShape shape record)

/- ### Query options and request construction (options.go; example/example.go service) -/

/-- Model of `url.Values`: an ordered multimap of query parameters. -/
abbrev Values := List (String × String)

/-- Model of `url.Values.Set`: replaces any existing values of the key with
the single given value. -/
def Values.set (v : Values) (key value : String) : Values :=
  (v.filter (fun p => p.1 != key)) ++ [(key, value)]

/-- All values recorded for a key. -/
def Values.getAll (v : Values) (key : String) : List String :=
  (v.filter (fun p => p.1 == key)).map (fun p => p.2)

/-- Model of the `Option` function type of options.go 9 (named `QueryOption`
here because `Option` is taken in Lean): a caller-supplied query mutation,
arbitrary since callers may pass any function. -/
abbrev QueryOption := Values → Values

/-- Model of `strings.ToUpper` on the ASCII strings this API passes as
query parameter values. -/
def stringsToUpper (s : String) : String :=
  String.mk (s.toList.map (fun c =>
    if 97 ≤ c.toNat && c.toNat ≤ 122 then Char.ofNat (c.toNat - 32) else c))

/-- Model of `OptionOutputFormat` (options.go 17-22). -/
def OptionOutputFormat (outputFormat : String) : QueryOption :=
  fun v => v.set "outputFormat" (stringsToUpper outputFormat)

/-- Model of `OptionType` (options.go 27-31). -/
def OptionType (value : String) : QueryOption :=
  fun v => v.set "type" (stringsToUpper value)

/-- Model of `OptionCallback` (options.go 35-39). -/
def OptionCallback (value : String) : QueryOption :=
  fun v => v.set "callback" value

/-- The query built by `newRequest` (service, 101-113): the API key only. -/
def newRequestQuery (apiKey : String) : Values :=
  Values.set [] "apiKey" apiKey

/-- The query of `dnsLookupServiceOp.request` (service, 122-152):
`domainName` and the default `type=_all` are set, then the caller's options
are applied in the order supplied. -/
def requestQuery (apiKey domainName : String) (opts : List QueryOption) : Values :=
  let q := ((newRequestQuery apiKey).set "domainName" domainName).set "type" "_all"
  opts.foldl (fun q opt => opt q) q

/-- The query sent by `dnsLookupServiceOp.Get` (service, 167-176): the
caller's options with `OptionOutputFormat("JSON")` appended after them. -/
def getQuery (apiKey domainName : String) (opts : List QueryOption) : Values :=
  requestQuery apiKey domainName (opts ++ [OptionOutputFormat "JSON"])

/- ### Responses, the error envelope and the two access modes -/

/-- Model of `Response` (service, 85-90): the HTTP status together with the
body bytes, the body carried as the JSON document it spells. -/
structure Response where
  statusCode : Int
  body : Json
deriving DecidableEq, Repr

/-- Model of `ErrorResponse` (client.go 118-130): the "bad status" error,
wrapping the offending response. -/
structure ErrorResponse where
  response : Response
  message : String
deriving DecidableEq, Repr

/-- Model of `checkResponse` (client.go 132-143): `nil` when
`200 <= c && c <= 299`, otherwise an `ErrorResponse` holding the response. -/
def checkResponse (r : Response) : Option ErrorResponse :=
  if 200 ≤ r.statusCode ∧ r.statusCode ≤ 299 then none
  else some ⟨r, ""⟩

/-- Model of `ErrorMessage` (models.go 735-744): the remote error envelope. -/
structure ErrorMessage where
  Code : String
  Message : String
deriving DecidableEq, Repr

/-- Go decode of the `ErrorMessage` struct (tags `errorCode`, `msg`). -/
def decodeErrorMessage (j : Json) : Except String ErrorMessage := do
  let fields ← objFields j
  let code ← decodeStringField fields "errorCode"
  let msg ← decodeStringField fields "msg"
  pure ⟨code, msg⟩

/-- Model of `Audit` (models.go 706-714). -/
structure Audit where
  createdDate : Time
  updatedDate : Time
deriving DecidableEq, Repr

/-- Go decode of a `Time` struct field: a missing key leaves the zero time;
a present value (`null` included — a custom `Unmarshaler` receives the
literal `null`) goes through `Time.UnmarshalJSON`. -/
def decodeTimeField (fields : List (String × Json)) (tag : String) : Except String Time :=
  match getField fields tag with
  | none => .ok emptyTime
  | some v => Time.unmarshalJSON v

/-- Go decode of the `Audit` struct. -/
def decodeAudit (j : Json) : Except String Audit := do
  let fields ← objFields j
  let createdDate ← decodeTimeField fields "createdDate"
  let updatedDate ← decodeTimeField fields "updatedDate"
  pure ⟨createdDate, updatedDate⟩

/-- Model of `DNSLookupResponse` (models.go 716-733). -/
structure DNSLookupResponse where
  domainName : String
  types : List Int
  dnsTypes : String
  audit : Audit
  dnsRecords : DNSRecords

/-- The zero value of `DNSLookupResponse`. -/
def zeroDNSLookupResponse : DNSLookupResponse :=
  ⟨"", [], "", ⟨emptyTime, emptyTime⟩, emptyRecords⟩

/-- Go decode of a struct-valued field whose type decodes via `dec`: a
missing key leaves the zero value `z`; a present value is handed to `dec`. -/
def decodeStructField {α : Type} (fields : List (String × Json)) (tag : String)
    (dec : Json → Except String α) (z : α) : Except String α :=
  match getField fields tag with
  | none => .ok z
  | some v => dec v

/-- Go decode of the `DNSLookupResponse` struct.  The `DNSRecords` field has
a custom `UnmarshalJSON`, invoked on the zero receiver. -/
def decodeDNSLookupResponse (j : Json) : Except String DNSLookupResponse := do
  let fields ← objFields j
  let domainName ← decodeStringField fields "domainName"
  let types ← decodeIntListField fields "types"
  let dnsTypes ← decodeStringField fields "dnsTypes"
  let audit ← decodeStructField fields "audit" decodeAudit ⟨emptyTime, emptyTime⟩
  let dnsRecords ← decodeStructField fields "dnsRecords"
    emptyRecords.unmarshalJSON emptyRecords
  pure ⟨domainName, types, dnsTypes, audit, dnsRecords⟩

/-- Model of `apiResponse` (service, 116-119): the embedded
`DNSLookupResponse` under top-level key `DNSData`, the embedded
`ErrorMessage` under sibling key `ErrorMessage`. -/
structure apiResponse where
  dnsData : DNSLookupResponse
  errorMessage : ErrorMessage

/-- Go decode of `apiResponse`. -/
def decodeApiResponse (j : Json) : Except String apiResponse := do
  let fields ← objFields j
  let dnsData ← decodeStructField fields "DNSData"
    decodeDNSLookupResponse zeroDNSLookupResponse
  let errorMessage ← decodeStructField fields "ErrorMessage" decodeErrorMessage ⟨"", ""⟩
  pure ⟨dnsData, errorMessage⟩

/-- Model of `parse` (service, 155-164): decode the body into `apiResponse`,
wrapping a decode failure with the "cannot parse response" tag. -/
def parse (raw : Json) : Except String apiResponse :=
  match decodeApiResponse raw with
  | .error e => .error ("cannot parse response: " ++ e)
  | .ok response => .ok response

/-- The outcome of `dnsLookupServiceOp.Get` after a successful HTTP
exchange: the decoded response, a parse failure, or the remote error
envelope (in which case Go returns `nil, nil, &ErrorMessage{...}` — no
lookup response). -/
inductive GetResult where
  | success (resp : DNSLookupResponse)
  | parseFailure (msg : String)
  | apiError (e : ErrorMessage)

/-- Model of the response handling of `dnsLookupServiceOp.Get` (service,
166-194) once `request` has delivered the response: parse the body; if the
error envelope carries a nonempty message or code, fail with exactly that
`ErrorMessage` and no lookup response; otherwise return the decoded
`DNSLookupResponse`.  The HTTP status of the response is never consulted. -/
def dnsLookupServiceOp.Get (resp : Response) : GetResult :=
  match parse resp.body with
  | .error e => .parseFailure e
  | .ok dnsLookupResp =>
    if dnsLookupResp.errorMessage.Message ≠ "" ∨ dnsLookupResp.errorMessage.Code ≠ "" then
      .apiError ⟨dnsLookupResp.errorMessage.Code, dnsLookupResp.errorMessage.Message⟩
    else
      .success dnsLookupResp.dnsData

/-- Model of `dnsLookupServiceOp.GetRaw` (service, 196-212) once `request`
has delivered the response: the response is returned in every case, paired
with the `checkResponse` verdict. -/
def dnsLookupServiceOp.GetRaw (resp : Response) : Response × Option ErrorResponse :=
  match checkResponse resp with
  | some respErr => (resp, some respErr)
  | none => (resp, none)

/- ### Structural lemmas about the decoder -/

theorem appendTyped_All (r : DNSRecords) (t : TypedRecord) :
    (appendTyped r t).All = r.All := by
  cases t <;> rfl

theorem parseRecord_fst_All (r : DNSRecords) (j : Json) :
    ((r.parseRecord j).1).All = r.All := by
  cases hc : decodeCommon j with
  | error e => simp [DNSRecords.parseRecord, hc]
  | ok obj =>
    cases ha : actualDNSType obj.dnsType with
    | none => simp [DNSRecords.parseRecord, hc, ha]
    | some shape =>
      cases hd : decodeShape shape j with
      | error e => simp [DNSRecords.parseRecord, hc, ha, hd]
      | ok v => simp [DNSRecords.parseRecord, hc, ha, hd, appendTyped_All]

theorem parseRecord_snd (r : DNSRecords) (j : Json) :
    (r.parseRecord j).2 = parseRecordResult j := by
  cases hc : decodeCommon j with
  | error e => simp [DNSRecords.parseRecord, parseRecordResult, hc]
  | ok obj =>
    cases ha : actualDNSType obj.dnsType with
    | none => simp [DNSRecords.parseRecord, parseRecordResult, hc, ha]
    | some shape =>
      cases hd : decodeShape shape j with
      | error e => simp [DNSRecords.parseRecord, parseRecordResult, hc, ha, hd]
      | ok v => simp [DNSRecords.parseRecord, parseRecordResult, hc, ha, hd]

theorem typedCount_appendTyped (r : DNSRecords) (t : TypedRecord) :
    typedCount (appendTyped r t) = typedCount r + 1 := by
  cases t <;> simp [appendTyped, typedCount] <;> omega

theorem parseRecord_typedCount (r : DNSRecords) (j : Json) :
    typedCount (r.parseRecord j).1 = typedCount r + (if fullDecodeOk j then 1 else 0) := by
  cases hc : decodeCommon j with
  | error e => simp [DNSRecords.parseRecord, fullDecodeOk, hc]
  | ok obj =>
    cases ha : actualDNSType obj.dnsType with
    | none => simp [DNSRecords.parseRecord, fullDecodeOk, hc, ha]
    | some shape =>
      cases hd : decodeShape shape j with
      | error e => simp [DNSRecords.parseRecord, fullDecodeOk, hc, ha, hd, exceptOk]
      | ok v =>
        simp [DNSRecords.parseRecord, fullDecodeOk, hc, ha, hd, exceptOk, typedCount_appendTyped]

theorem parseRecordResult_error_iff (j : Json) :
    (parseRecordResult j).ParseError = none ↔ fullDecodeOk j = true := by
  cases hc : decodeCommon j with
  | error e => simp [parseRecordResult, fullDecodeOk, hc]
  | ok obj =>
    cases ha : actualDNSType obj.dnsType with
    | none => simp [parseRecordResult, fullDecodeOk, hc, ha]
    | some shape =>
      cases hd : decodeShape shape j with
      | error e => simp [parseRecordResult, fullDecodeOk, hc, ha, hd, exceptOk]
      | ok v => simp [parseRecordResult, fullDecodeOk, hc, ha, hd, exceptOk]

theorem parseRecordResult_Raw (j : Json) : (parseRecordResult j).Raw = j := by
  cases hc : decodeCommon j with
  | error e => simp [parseRecordResult, hc]
  | ok obj =>
    cases ha : actualDNSType obj.dnsType with
    | none => simp [parseRecordResult, hc, ha]
    | some shape =>
      cases hd : decodeShape shape j with
      | error e => simp [parseRecordResult, hc, ha, hd]
      | ok v => simp [parseRecordResult, hc, ha, hd]

theorem typedCount_setAll (r : DNSRecords) (l : List DNSRecord) :
    typedCount { r with All := l } = typedCount r := rfl

theorem parseAll_All (l : List Json) : ∀ r : DNSRecords,
    (parseAll r l).All = r.All ++ l.map parseRecordResult := by
  induction l with
  | nil => intro r; simp [parseAll]
  | cons j rest ih =>
    intro r
    rw [parseAll, ih]
    simp [parseRecord_fst_All, parseRecord_snd]

theorem parseAll_typedCount (l : List Json) : ∀ r : DNSRecords,
    typedCount (parseAll r l) = typedCount r + l.countP fullDecodeOk := by
  induction l with
  | nil => intro r; simp [parseAll]
  | cons j rest ih =>
    intro r
    rw [parseAll, ih, typedCount_setAll, parseRecord_typedCount, List.countP_cons]
    by_cases hj : fullDecodeOk j
    · simp only [hj, if_true]
      omega
    · simp [hj]

/- ### Fixtures: concrete wire fragments used by witnesses and counterexamples -/

/-- A well-formed A record element (the shape of the repository's test
vector). -/
def aRecordJson : Json :=
  jobj [("type", .num 1), ("dnsType", .str "A"), ("name", .str "whoisxmlapi.com."),
        ("ttl", .num 300), ("rRsetType", .num 1), ("rawText", .str "raw-a"),
        ("address", .str "172.67.71.123")]

/-- An element whose envelope decodes but whose `dnsType` tag is unknown. -/
def unknownTagJson : Json := jobj [("dnsType", .str "BOGUS")]

/-- Is the document a JSON array? -/
def jsonIsArr : Json → Bool
  | .arr _ => true
  | _ => false

/-- The flat list of a decode result (`[]` on failure). -/
def getAllList (e : Except String DNSRecords) : List DNSRecord :=
  match e with
  | .ok rs => rs.All
  | .error _ => []

/-- Decode, re-encode, decode again: the round trip of C1. -/
def reDecode (data : Json) : Except String DNSRecords :=
  match emptyRecords.unmarshalJSON data with
  | .error e => .error e
  | .ok rs => emptyRecords.unmarshalJSON rs.marshalJSON

/- ### Lemmas about the re-encoded form -/

/-- The envelope decode of an encoded entry yields the zero envelope: the
encoder nests the envelope under the `CommonFields` key, and neither
`CommonFields`, `raw` nor `parseError` is a case variant of an envelope tag,
so every envelope field falls back to its zero value. -/
theorem decodeCommon_marshalled (d : DNSRecord) :
    decodeCommon (marshalDNSRecord d) = .ok commonFields.zero := rfl

theorem parseRecordResult_marshalled (d : DNSRecord) :
    parseRecordResult (marshalDNSRecord d)
      = ⟨commonFields.zero, marshalDNSRecord d, some ErrUnsupportedDNSType⟩ := rfl

theorem fullDecodeOk_marshalled (d : DNSRecord) :
    fullDecodeOk (marshalDNSRecord d) = false := rfl

/-- A fragment that does not fully decode appends to no typed list: the
receiver comes back unchanged. -/
theorem parseRecord_no_append (r : DNSRecords) (j : Json) (h : fullDecodeOk j = false) :
    r.parseRecord j = (r, parseRecordResult j) := by
  cases hc : decodeCommon j with
  | error e => simp [DNSRecords.parseRecord, parseRecordResult, hc]
  | ok obj =>
    cases ha : actualDNSType obj.dnsType with
    | none => simp [DNSRecords.parseRecord, parseRecordResult, hc, ha]
    | some shape =>
      cases hd : decodeShape shape j with
      | error e => simp [DNSRecords.parseRecord, parseRecordResult, hc, ha, hd]
      | ok v => simp [fullDecodeOk, hc, ha, hd, exceptOk] at h

theorem parseAll_no_append (l : List Json) (h : ∀ j ∈ l, fullDecodeOk j = false) :
    ∀ r : DNSRecords, parseAll r l = { r with All := r.All ++ l.map parseRecordResult } := by
  induction l with
  | nil => intro r; simp [parseAll]
  | cons j rest ih =>
    intro r
    rw [parseAll, parseRecord_no_append r j (h j (by simp))]
    rw [ih (fun x hx => h x (by simp [hx]))]
    simp

/-- Boolean form of `parseRecordResult_error_iff`. -/
theorem parseRecordResult_isNone (j : Json) :
    (parseRecordResult j).ParseError.isNone = fullDecodeOk j := by
  cases hc : decodeCommon j with
  | error e => simp [parseRecordResult, fullDecodeOk, hc]
  | ok obj =>
    cases ha : actualDNSType obj.dnsType with
    | none => simp [parseRecordResult, fullDecodeOk, hc, ha]
    | some shape =>
      cases hd : decodeShape shape j with
      | error e => simp [parseRecordResult, fullDecodeOk, hc, ha, hd, exceptOk]
      | ok v => simp [parseRecordResult, fullDecodeOk, hc, ha, hd, exceptOk]

/-- `Set` leaves exactly one value for the key, the one just set. -/
theorem Values.getAll_set (v : Values) (key value : String) :
    (v.set key value).getAll key = [value] := by
  simp only [Values.set, Values.getAll, List.filter_append]
  rw [List.filter_filter]
  simp [bne]

/- ### The claims -/

/-- C7: the timestamp codec decodes the JSON string `""` to the zero
timestamp; decoding `"2006-01-02 15:04:05 UTC"` and re-encoding yields the
identical literal string; and decoding a non-conforming literal such as an
ISO-8601 string with a `T` separator fails with a descriptive parse error. -/
theorem c7_time_codec :
    Time.unmarshalJSON (.str "") = .ok emptyTime
      ∧ (Time.unmarshalJSON (.str "2006-01-02 15:04:05 UTC")).map Time.marshalJSON
          = .ok (.str "2006-01-02 15:04:05 UTC")
      ∧ exceptOk (Time.unmarshalJSON (.str "2006-01-02T15:04:05-07:00")) = false :=
  ⟨by decide, by decide, by decide⟩

/-- C9: decoding the empty JSON array yields the empty record collection, and
encoding any collection whose `All` list is empty yields the literal `[]`,
never `null`. -/
theorem c9_empty_array (rs : DNSRecords) (h : rs.All = []) :
    emptyRecords.unmarshalJSON (jarr []) = .ok emptyRecords
      ∧ rs.marshalJSON = jarr [] ∧ rs.marshalJSON ≠ Json.null := by
  refine ⟨rfl, ?_, ?_⟩
  · simp [DNSRecords.marshalJSON, h]
  · simp [DNSRecords.marshalJSON, h, jarr, JsonList.ofList]

/-- A collection with an empty `All` but a nonempty typed list, witnessing
that C9's encoding clause depends on `All` alone. -/
def c9wRecords : DNSRecords :=
  { emptyRecords with A := [⟨commonFields.zero, "10.0.0.1"⟩] }

theorem c9_empty_array_witness :
    emptyRecords.unmarshalJSON (jarr []) = .ok emptyRecords
      ∧ c9wRecords.marshalJSON = jarr [] ∧ c9wRecords.marshalJSON ≠ Json.null :=
  c9_empty_array c9wRecords rfl

/-- C4: an array element whose envelope decodes but whose `dnsType` tag is
absent from the table yields a flat entry with the envelope populated, the
sentinel `ErrUnsupportedDNSType`, the original fragment as raw bytes — and
the receiver's typed lists are returned unchanged (no typed-list append). -/
theorem c4_unknown_tag (r : DNSRecords) (j : Json) (cf : commonFields)
    (h1 : decodeCommon j = .ok cf) (h2 : actualDNSType cf.dnsType = none) :
    r.parseRecord j = (r, ⟨cf, j, some ErrUnsupportedDNSType⟩) := by
  simp [DNSRecords.parseRecord, h1, h2]

theorem c4_unknown_tag_witness :
    emptyRecords.parseRecord unknownTagJson
      = (emptyRecords,
         ⟨⟨0, "BOGUS", "", 0, 0, ""⟩, unknownTagJson, some ErrUnsupportedDNSType⟩) :=
  c4_unknown_tag emptyRecords unknownTagJson ⟨0, "BOGUS", "", 0, 0, ""⟩ (by decide) (by decide)

/-- C3 counterexample: JSON `null` is not a JSON array, yet
`DNSRecords.UnmarshalJSON` does not fail on it — `json.Unmarshal` of `null`
into a slice is a documented no-op, so the decode succeeds with an empty
collection instead of failing with a parse error. -/
theorem c3_counterexample :
    jsonIsArr Json.null = false
      ∧ emptyRecords.unmarshalJSON Json.null = .ok emptyRecords :=
  ⟨rfl, rfl⟩

/-- C3 (amended): for an array input the decoder produces exactly one flat
triple per element, in input order, each carrying its element as raw bytes,
failed elements included; an input that is neither a JSON array nor JSON
`null` fails the whole decode with a parse error, while JSON `null` decodes
like the empty array. -/
theorem c3_amended (data : Json) :
    (∀ elems : List Json, data = jarr elems →
        emptyRecords.unmarshalJSON data = .ok (parseAll emptyRecords elems)
          ∧ (parseAll emptyRecords elems).All = elems.map parseRecordResult
          ∧ ∀ j : Json, (parseRecordResult j).Raw = j)
      ∧ (jsonIsArr data = false → data ≠ Json.null →
          exceptOk (emptyRecords.unmarshalJSON data) = false) := by
  constructor
  · intro elems he
    subst he
    refine ⟨?_, ?_, parseRecordResult_Raw⟩
    · simp [DNSRecords.unmarshalJSON, rawArray, jarr, JsonList.toList_ofList]
    · rw [parseAll_All]
      simp [emptyRecords]
  · intro h1 h2
    cases data <;> simp_all [DNSRecords.unmarshalJSON, rawArray, exceptOk, jsonIsArr]

theorem c3_amended_witness :
    emptyRecords.unmarshalJSON (jarr [aRecordJson, Json.num 7])
        = .ok (parseAll emptyRecords [aRecordJson, Json.num 7])
      ∧ (parseAll emptyRecords [aRecordJson, Json.num 7]).All
          = [aRecordJson, Json.num 7].map parseRecordResult
      ∧ exceptOk (emptyRecords.unmarshalJSON (Json.str "nope")) = false :=
  ⟨((c3_amended (jarr [aRecordJson, Json.num 7])).1 [aRecordJson, Json.num 7] rfl).1,
   ((c3_amended (jarr [aRecordJson, Json.num 7])).1 [aRecordJson, Json.num 7] rfl).2.1,
   (c3_amended (Json.str "nope")).2 rfl (by decide)⟩

/-- C2: for a decoded collection, the typed lists are populated by exactly
the elements whose tag was in the known-tag table and whose full
concrete-shape decode succeeded — their total count equals the number of
such elements, which is also the number of error-free flat entries — and
that total is at most the length of `All`. -/
theorem c2_typed_lists (elems : List Json) (rs : DNSRecords)
    (h : emptyRecords.unmarshalJSON (jarr elems) = .ok rs) :
    typedCount rs = elems.countP fullDecodeOk
      ∧ typedCount rs = (rs.All.filter (fun d => d.ParseError.isNone)).length
      ∧ typedCount rs ≤ rs.All.length := by
  have hrs : rs = parseAll emptyRecords elems := by
    simp [DNSRecords.unmarshalJSON, rawArray, jarr, JsonList.toList_ofList] at h
    exact h.symm
  subst hrs
  have h1 : typedCount (parseAll emptyRecords elems) = elems.countP fullDecodeOk := by
    rw [parseAll_typedCount]
    simp [typedCount, emptyRecords]
  have hAll : (parseAll emptyRecords elems).All = elems.map parseRecordResult := by
    rw [parseAll_All]
    simp [emptyRecords]
  have h2 : ((parseAll emptyRecords elems).All.filter
        (fun d => d.ParseError.isNone)).length = elems.countP fullDecodeOk := by
    rw [hAll, ← List.countP_eq_length_filter, List.countP_map]
    exact List.countP_congr (fun j _ => by simp [Function.comp, parseRecordResult_isNone])
  refine ⟨h1, by rw [h1, h2], ?_⟩
  rw [h1, ← h2, hAll]
  simpa [hAll] using List.length_filter_le (fun d => d.ParseError.isNone)
    (elems.map parseRecordResult)

/-- The element list of the C2 witness: one full success, one unknown tag,
one malformed element. -/
def c2wElems : List Json := [aRecordJson, unknownTagJson, Json.num 7]

theorem c2_typed_lists_witness :
    typedCount (parseAll emptyRecords c2wElems) = c2wElems.countP fullDecodeOk
      ∧ typedCount (parseAll emptyRecords c2wElems)
          = ((parseAll emptyRecords c2wElems).All.filter
              (fun d => d.ParseError.isNone)).length
      ∧ typedCount (parseAll emptyRecords c2wElems)
          ≤ (parseAll emptyRecords c2wElems).All.length :=
  c2_typed_lists c2wElems (parseAll emptyRecords c2wElems) rfl

/-- C1 counterexample: decode a one-element array holding a well-formed A
record, encode the collection, decode the encoding: the re-decoded flat
entry preserves neither the envelope fields nor the raw bytes of the
original, and the original's absent error does not re-decode as "no error"
but as the unsupported-type sentinel — the encoder nests the envelope under
the `CommonFields` key, where the decoder never looks. -/
theorem c1_counterexample :
    exceptOk (emptyRecords.unmarshalJSON (jarr [aRecordJson])) = true
      ∧ exceptOk (reDecode (jarr [aRecordJson])) = true
      ∧ (getAllList (reDecode (jarr [aRecordJson]))).map DNSRecord.CommonFields
          ≠ (getAllList (emptyRecords.unmarshalJSON (jarr [aRecordJson]))).map
              DNSRecord.CommonFields
      ∧ (getAllList (reDecode (jarr [aRecordJson]))).map DNSRecord.Raw
          ≠ (getAllList (emptyRecords.unmarshalJSON (jarr [aRecordJson]))).map DNSRecord.Raw
      ∧ (getAllList (emptyRecords.unmarshalJSON (jarr [aRecordJson]))).map
            DNSRecord.ParseError = [none]
      ∧ (getAllList (reDecode (jarr [aRecordJson]))).map DNSRecord.ParseError
          = [some ErrUnsupportedDNSType] :=
  ⟨by decide, by decide, by decide, by decide, by decide, by decide⟩

/-- C1 (amended): encoding a collection yields the array of the
envelope+raw+error entries with absent errors encoded as `null`, and
re-decoding the encoding always succeeds with exactly one flat entry per
original entry, in order — but each re-decoded entry carries the zero
envelope, the whole encoded entry as its raw bytes and the unsupported-type
sentinel, not the original envelope fields, raw bytes and absent error. -/
theorem c1_amended (rs : DNSRecords) :
    marshalParseError none = Json.null
      ∧ emptyRecords.unmarshalJSON rs.marshalJSON
          = .ok { emptyRecords with
                  All := rs.All.map (fun d =>
                    ⟨commonFields.zero, marshalDNSRecord d, some ErrUnsupportedDNSType⟩) } := by
  refine ⟨rfl, ?_⟩
  by_cases h : rs.All.length = 0
  · have hnil : rs.All = [] := List.length_eq_zero.mp h
    simp [DNSRecords.marshalJSON, h, hnil, DNSRecords.unmarshalJSON, rawArray, jarr,
          JsonList.ofList, JsonList.toList, parseAll, emptyRecords]
  · have hraw : rawArray (jarr (rs.All.map marshalDNSRecord))
        = .ok (rs.All.map marshalDNSRecord) := by
      simp [rawArray, jarr, JsonList.toList_ofList]
    have hnap := parseAll_no_append (rs.All.map marshalDNSRecord)
      (fun j hj => by
        obtain ⟨d, _, rfl⟩ := List.mem_map.mp hj
        exact fullDecodeOk_marshalled d) emptyRecords
    simp only [DNSRecords.marshalJSON, h, if_false, DNSRecords.unmarshalJSON, hraw]
    rw [hnap]
    simp [List.map_map, Function.comp, parseRecordResult_marshalled, emptyRecords]

/-- C5: in typed mode the outgoing request's `outputFormat` query parameter
is always `JSON`: for every caller-supplied option list — including one that
explicitly sets a different output format — the forced JSON option is
applied after the caller's options and silently supersedes them. -/
theorem c5_forced_json_format (apiKey domainName : String) (opts : List QueryOption) :
    (getQuery apiKey domainName opts).getAll "outputFormat" = ["JSON"] := by
  unfold getQuery requestQuery
  rw [List.foldl_append]
  simp only [List.foldl_cons, List.foldl_nil, OptionOutputFormat]
  rw [Values.getAll_set]
  decide

/-- C6: for a typed fetch whose HTTP exchange and parse succeed but whose
error envelope carries a nonempty code or a nonempty message, `Get` fails
with a remote-error value carrying exactly that code and message, and
returns no lookup response. -/
theorem c6_remote_error (resp : Response) (r : apiResponse)
    (hp : parse resp.body = .ok r)
    (hne : r.errorMessage.Code ≠ "" ∨ r.errorMessage.Message ≠ "") :
    dnsLookupServiceOp.Get resp
      = .apiError ⟨r.errorMessage.Code, r.errorMessage.Message⟩ := by
  rcases hne with hcode | hmsg
  · simp [dnsLookupServiceOp.Get, hp, hcode]
  · simp [dnsLookupServiceOp.Get, hp, hmsg]

/-- The response body of the C6 witness: a populated error envelope. -/
def c6Body : Json :=
  jobj [("ErrorMessage", jobj [("errorCode", .str "WL_01"), ("msg", .str "oops")])]

theorem c6_remote_error_witness :
    dnsLookupServiceOp.Get ⟨200, c6Body⟩ = .apiError ⟨"WL_01", "oops"⟩ :=
  c6_remote_error ⟨200, c6Body⟩ ⟨zeroDNSLookupResponse, ⟨"WL_01", "oops"⟩⟩ (by rfl)
    (Or.inl (by decide))

/-- C8: for a raw-mode fetch whose HTTP exchange and body read succeed, the
call fails exactly when the status is outside 200-299; statuses 200-299
yield no bad-status error; the response (with its body) is returned in every
case, and the bad-status error wraps that same response. -/
theorem c8_raw_bad_status (resp : Response) :
    ((dnsLookupServiceOp.GetRaw resp).2 = none
        ↔ (200 ≤ resp.statusCode ∧ resp.statusCode ≤ 299))
      ∧ (dnsLookupServiceOp.GetRaw resp).1 = resp
      ∧ (∀ e : ErrorResponse,
          (dnsLookupServiceOp.GetRaw resp).2 = some e → e.response = resp) := by
  unfold dnsLookupServiceOp.GetRaw checkResponse
  by_cases h : 200 ≤ resp.statusCode ∧ resp.statusCode ≤ 299
  · simp [h]
  · simp [h]

theorem c8_raw_bad_status_witness :
    (dnsLookupServiceOp.GetRaw ⟨500, Json.str "oops"⟩).2 ≠ none
      ∧ ErrorResponse.response ⟨⟨500, Json.str "oops"⟩, ""⟩ = ⟨500, Json.str "oops"⟩
      ∧ (dnsLookupServiceOp.GetRaw ⟨204, Json.null⟩).2 = none := by
  refine ⟨fun hc => ?_, (c8_raw_bad_status ⟨500, Json.str "oops"⟩).2.2
      ⟨⟨500, Json.str "oops"⟩, ""⟩ (by rfl), ?_⟩
  · have := (c8_raw_bad_status ⟨500, Json.str "oops"⟩).1.mp hc
    exact absurd this (by decide)
  · exact (c8_raw_bad_status ⟨204, Json.null⟩).1.mpr (by decide)

/-- C10: `Get` never inspects the HTTP status code: for every response whose
body parses into a lookup envelope with an empty error envelope, `Get`
returns the decoded lookup response with no error, whatever the status —
and the bad-status check fires only on the `GetRaw` path for the very same
response. -/
theorem c10_get_ignores_status (statusCode : Int) (body : Json) (r : apiResponse)
    (hp : parse body = .ok r)
    (hc : r.errorMessage.Code = "") (hm : r.errorMessage.Message = "") :
    dnsLookupServiceOp.Get ⟨statusCode, body⟩ = .success r.dnsData
      ∧ (¬(200 ≤ statusCode ∧ statusCode ≤ 299) →
          (dnsLookupServiceOp.GetRaw ⟨statusCode, body⟩).2
            = some ⟨⟨statusCode, body⟩, ""⟩) := by
  constructor
  · simp [dnsLookupServiceOp.Get, hp, hc, hm]
  · intro h
    simp [dnsLookupServiceOp.GetRaw, checkResponse, h]

theorem c10_get_ignores_status_witness :
    dnsLookupServiceOp.Get ⟨500, jobj []⟩ = .success zeroDNSLookupResponse
      ∧ (dnsLookupServiceOp.GetRaw ⟨500, jobj []⟩).2 = some ⟨⟨500, jobj []⟩, ""⟩ := by
  have h := c10_get_ignores_status 500 (jobj []) ⟨zeroDNSLookupResponse, ⟨"", ""⟩⟩ rfl rfl rfl
  exact ⟨h.1, h.2 (by omega)⟩
